import Mathlib

/-!
Shallow embedding of acronsum.py (Acronis Backup Summary) and theorems about
its behaviour: summary-line classification, error extraction and
deduplication, report rendering, retrying email delivery, and the
transactional mailbox handling of process_emails.

Strings are modelled by Lean String over their code-point lists; a Python
run that raises an uncaught exception is modelled by none / Except.error.
-/

namespace Acronsum

/-- Boolean test that pat is a leading segment of l; model of the Python
str.startswith test on code points. -/
def isPrefixB : List Char → List Char → Bool
  | [], _ => true
  | _ :: _, [] => false
  | a :: as, b :: bs => decide (a = b) && isPrefixB as bs

/-- Boolean substring test; model of the Python membership test pat in s on
code points. -/
def isSubB : List Char → List Char → Bool
  | pat, [] => pat.isEmpty
  | pat, b :: bs => isPrefixB pat (b :: bs) || isSubB pat bs

/-- model of the Python expression pat in s (literal, case-sensitive
substring containment). -/
def containsSub (s pat : String) : Bool := isSubB pat.data s.data

/-- model of the Python expression s.startswith(pat). -/
def startsWith (s pat : String) : Bool := isPrefixB pat.data s.data

/-- split a character list at newline characters; bodies handled by
process_emails are joined with a single newline, so this models
str.splitlines there (the two differ only by a trailing empty line, which
every consumer in the program filters out or ignores). -/
def splitCharsOnNL : List Char → List (List Char)
  | [] => [[]]
  | c :: rest =>
    if c = '\n' then [] :: splitCharsOnNL rest
    else
      match splitCharsOnNL rest with
      | [] => [[c]]
      | h :: t => (c :: h) :: t

/-- model of str.splitlines as used in acronsum.py. -/
def splitlines (s : String) : List String := (splitCharsOnNL s.data).map String.mk

/-- model of the Python slice s[n:] (by code points). -/
def strDrop (s : String) (n : Nat) : String := String.mk (s.data.drop n)

/-- model of the Python expression s.rstrip of a period: removes every
trailing period, not only one. -/
def rstripDots (s : String) : String :=
  String.mk ((s.data.reverse.dropWhile (fun c => c = '.')).reverse)

/-- model of sep.join applied to a list of strings. -/
def joinSep (sep : String) : List String → String
  | [] => ""
  | [a] => a
  | a :: b :: rest => a ++ sep ++ joinSep sep (b :: rest)

/-- more_itertools.unique_everseen specialised to strings: seen is the set of
values already emitted; each value is kept at its first occurrence only. -/
def uniqueAux (seen : List String) : List String → List String
  | [] => []
  | a :: rest =>
    if a ∈ seen then uniqueAux seen rest else a :: uniqueAux (a :: seen) rest

/-- model of more_itertools.unique_everseen on a list of strings. -/
def unique_everseen (l : List String) : List String := uniqueAux [] l

/-- loop of extract_errors (acronsum.py lines 115-120): cur is the current
value of the local backup_error (none while still unassigned), acc the
collected backup_errors. The result is none exactly when the source would
raise UnboundLocalError: a Message line seen before any Error code line. -/
def extractLoop (cur : Option String) (acc : List String) : List String → Option (List String)
  | [] => some acc
  | line :: rest =>
    if startsWith line "Error code:" then
      extractLoop (some line) acc rest
    else if startsWith line "Message:" then
      match cur with
      | none => none
      | some be =>
        extractLoop (some (be ++ ":" ++ strDrop line 8))
          (acc ++ [be ++ ":" ++ strDrop line 8]) rest
    else
      extractLoop cur acc rest

/-- extract_errors from acronsum.py: scan all lines, pair each Message line
with the most recent Error code line, deduplicate the rendered entries and
wrap them in an HTML unordered list; none models an uncaught exception. -/
def extract_errors (email_text : String) : Option String :=
  (extractLoop none [] (splitlines email_text)).map
    (fun backup_errors =>
      "<ul><li>" ++ joinSep "</li><li>" (unique_everseen backup_errors) ++ "</li></ul>")

/-- classification outcome of one message body. -/
inductive Outcome
  | success
  | failure
  | unknown
deriving DecidableEq

/-- item colour used by send_backups_email for each outcome. -/
def outcome_color : Outcome → String
  | Outcome.success => "#006400"
  | Outcome.failure => "#FF0000"
  | Outcome.unknown => "#000000"

/-- branch structure of send_backups_email (acronsum.py lines 153-165)
applied to the computed last_line value. -/
def classify_outcome (ll : String) : Outcome :=
  if containsSub ll "has succeeded" then Outcome.success
  else if containsSub ll "has failed" then Outcome.failure
  else Outcome.unknown

/-- the error_info string computed in the same branch: empty for success and
unknown, the extracted error list for failure; none models an uncaught
exception inside extract_errors. -/
def error_info (body ll : String) : Option String :=
  if containsSub ll "has succeeded" then some ""
  else if containsSub ll "has failed" then extract_errors body
  else some ""

/-- the filter of falsy lines applied in send_backups_email before taking
the last line. -/
def nonBlankLines (body : String) : List String :=
  (splitlines body).filter (fun l => decide (l ≠ ""))

/-- last non-blank line of a body, if any. -/
def lastNonBlank (body : String) : Option String := (nonBlankLines body).getLast?

/-- the summary line interpolated into the report: last non-blank line with
trailing periods stripped. The value none models the IndexError the source
raises on a body with no non-blank line. -/
def last_line (body : String) : Option String := (lastNonBlank body).map rstripDots

/-- one entry of email_data: decoded plain-text body and the formatted local
date string derived from the Date header (date parsing and strftime are
opaque here; only the resulting display string matters to the claims). -/
structure EData where
  body : String
  formattedDate : String

/-- one iteration of the rendering loop of send_backups_email: an empty body
is skipped (contributes the empty string), otherwise the item is built from
the summary line, colour and error info; none models an uncaught exception
(IndexError on a body with no non-blank line, or a crash in
extract_errors). -/
def renderItem (d : EData) : Option String :=
  if d.body = "" then some ""
  else
    match last_line d.body with
    | none => none
    | some ll =>
      match error_info d.body ll with
      | none => none
      | some ei =>
        some ("<li style=\"color:" ++ outcome_color (classify_outcome ll) ++ "\">"
          ++ ll ++ " on " ++ d.formattedDate ++ ei ++ "</li>")

/-- sequential concatenation of the rendered items, aborting at the first
exception, as the Python loop does. -/
def renderItems : List EData → Option String
  | [] => some ""
  | d :: rest =>
    match renderItem d, renderItems rest with
    | some s, some r => some (s ++ r)
    | _, _ => none

/-- the ordered-list body linesUL built by send_backups_email. -/
def renderList (datas : List EData) : Option String :=
  (renderItems datas).map (fun s => "<ol>" ++ s ++ "</ol>")

/-- trace of one send_email call: number of transport invocations, the fixed
waits (in milliseconds) slept between consecutive attempts, and the final
result. -/
structure RetryTrace (E : Type) where
  calls : Nat
  sleeps : List Nat
  result : Except E Unit

/-- semantics of the retrying decorator with wait_fixed and
stop_max_attempt_number: attempt is the 1-based attempt number, remaining
the number of retries still allowed after it; a failing attempt with no
retries left re-raises its own error, otherwise the loop sleeps the fixed
wait and tries again. The transport is an oracle giving each numbered
attempt its outcome. -/
def retryGo {E : Type} (waitFixed : Nat) (transport : Nat → Except E Unit)
    (attempt : Nat) : Nat → RetryTrace E
  | 0 =>
    match transport attempt with
    | Except.ok _ => ⟨1, [], Except.ok ()⟩
    | Except.error e => ⟨1, [], Except.error e⟩
  | r + 1 =>
    match transport attempt with
    | Except.ok _ => ⟨1, [], Except.ok ()⟩
    | Except.error _ =>
      let t := retryGo waitFixed transport (attempt + 1) r
      ⟨t.calls + 1, waitFixed :: t.sleeps, t.result⟩

/-- the wait_fixed argument of the retry decorator on send_email
(milliseconds). -/
def wait_fixed : Nat := 60000

/-- the stop_max_attempt_number argument of the retry decorator on
send_email. -/
def stop_max_attempt_number : Nat := 15

/-- send_email from acronsum.py: one SMTP delivery under
retry(wait_fixed=60000, stop_max_attempt_number=15). -/
def send_email {E : Type} (transport : Nat → Except E Unit) : RetryTrace E :=
  retryGo wait_fixed transport 1 (stop_max_attempt_number - 1)

/-- POP3 session operations issued by process_emails. -/
inductive PopOp
  | dele (i : Nat)
  | rset
  | quit
deriving DecidableEq

/-- Modelled from the spec: POP3 session state per the external mailbox
interface of the spec — deletes are staged and become durable only on a
normal session close (quit); rset aborts every staged delete. The committed
field lists the deletions that became durable. -/
structure PopState where
  staged : List Nat
  committed : List Nat
  closed : Bool
deriving DecidableEq

/-- initial mailbox session state: nothing staged, nothing durable. -/
def popInit : PopState := ⟨[], [], false⟩

/-- Modelled from the spec: effect of one POP3 operation on the session
state. -/
def popStep (s : PopState) : PopOp → PopState
  | PopOp.dele i => { s with staged := s.staged ++ [i] }
  | PopOp.rset => { s with staged := [] }
  | PopOp.quit => { s with committed := s.committed ++ s.staged, closed := true }

/-- run a trace of POP3 operations from the initial session state. -/
def runPop (ops : List PopOp) : PopState := ops.foldl popStep popInit

/-- one MIME part of a fetched message. -/
structure MailPart where
  contentType : String
  payload : String

/-- one fetched mailbox message: its parts and the formatted local date
derived from its Date header. -/
structure RawMail where
  parts : List MailPart
  formattedDate : String

/-- the email_data list built by the fetch loop of process_emails: one entry
per text/plain part, other parts are logged and ignored. -/
def fetchEmailData (msgs : List RawMail) : List EData :=
  (msgs.map (fun msg =>
    (msg.parts.filter (fun p => decide (p.contentType = "text/plain"))).map
      (fun p => EData.mk p.payload msg.formattedDate))).flatten

/-- the staged delete issued for each enumerated message (m.dele(i+1)). -/
def deleOps (msgs : List RawMail) : List PopOp :=
  (List.range msgs.length).map (fun i => PopOp.dele (i + 1))

/-- outcome of one process_emails run. -/
inductive RunOutcome
  | summarySent (html : String)
  | summaryFailed (err : String)
  | noticeSent (body : String)
  | noticeFailed (err : String)
deriving DecidableEq

/-- send_backups_email from acronsum.py: build the report from email_data
and deliver it through send_email; the error carries the exception text that
process_emails catches (either a rendering crash or the delivery error after
exhausting retries). -/
def send_backups_email (emailData : List EData) (transport : Nat → Except String Unit) :
    Except String String :=
  match renderList emailData with
  | none => Except.error "IndexError"
  | some html =>
    match (send_email transport).result with
    | Except.ok _ => Except.ok html
    | Except.error e => Except.error e

/-- body of the fixed notice sent when the mailbox is empty. -/
def no_messages_body : String := "The backup log inbox is empty."

/-- send_no_messages_email from acronsum.py: deliver the fixed empty-inbox
notice through send_email. -/
def send_no_messages_email (transport : Nat → Except String Unit) : Except String String :=
  match (send_email transport).result with
  | Except.ok _ => Except.ok no_messages_body
  | Except.error e => Except.error e

/-- process_emails from acronsum.py: enumerate and fetch every message,
staging one delete per message; with messages present, send the summary and
either close normally (making the deletes durable) or, when the send raises,
reset the staged deletes before closing; with an empty mailbox, close at
once and send the fixed notice, logging a failure. Returns the POP operation
trace and the run outcome. -/
def process_emails (msgs : List RawMail) (transport : Nat → Except String Unit) :
    List PopOp × RunOutcome :=
  if msgs.length > 0 then
    match send_backups_email (fetchEmailData msgs) transport with
    | Except.error e => (deleOps msgs ++ [PopOp.rset, PopOp.quit], RunOutcome.summaryFailed e)
    | Except.ok html => (deleOps msgs ++ [PopOp.quit], RunOutcome.summarySent html)
  else
    match send_no_messages_email transport with
    | Except.error e => ([PopOp.quit], RunOutcome.noticeFailed e)
    | Except.ok b => ([PopOp.quit], RunOutcome.noticeSent b)

/-- the first-occurrence reading of deduplication used by the claims: pre is
the list of earlier entries; an entry is kept exactly when its value did not
occur earlier, at its original position. -/
def keepFirsts (pre : List String) : List String → List String
  | [] => []
  | a :: rest =>
    if a ∈ pre then keepFirsts (pre ++ [a]) rest else a :: keepFirsts (pre ++ [a]) rest

/-- number of entries textually identical to an earlier entry. -/
def dupCount (pre : List String) : List String → Nat
  | [] => 0
  | a :: rest => (if a ∈ pre then 1 else 0) + dupCount (pre ++ [a]) rest

/-- a transport failing on every attempt makes the retry loop run through all
its attempts, sleeping the fixed wait between consecutive ones, and end with
the error of the last attempt. -/
lemma retryGo_allFail {E : Type} (w : Nat) (tr : Nat → Except E Unit) (errs : Nat → E)
    (h : ∀ n, tr n = Except.error (errs n)) :
    ∀ r a, retryGo w tr a r = ⟨r + 1, List.replicate r w, Except.error (errs (a + r))⟩ := by
  intro r
  induction r with
  | zero =>
    intro a
    simp [retryGo, h a]
  | succ r ih =>
    intro a
    have hr : a + 1 + r = a + (r + 1) := by omega
    simp [retryGo, h a, ih (a + 1), List.replicate_succ, hr]

/-- Claim C6: with a transport failing on every attempt, send_email invokes
the transport exactly 15 times in total, sleeps the fixed wait of 60000
milliseconds (60 seconds, no jitter, no backoff) exactly 14 times between
consecutive attempts, and raises the error of the last attempt. -/
theorem send_email_retry_bound (transport : Nat → Except String Unit) (errs : Nat → String)
    (h : ∀ n, transport n = Except.error (errs n)) :
    (send_email transport).calls = 15
    ∧ (send_email transport).sleeps = List.replicate 14 60000
    ∧ wait_fixed = 60000
    ∧ stop_max_attempt_number = 15
    ∧ (send_email transport).result = Except.error (errs 15) := by
  have hg := retryGo_allFail wait_fixed transport errs h 14 1
  have hs : send_email transport = retryGo wait_fixed transport 1 14 := rfl
  rw [hs, hg]
  exact ⟨rfl, rfl, rfl, rfl, rfl⟩

/-- witness for send_email_retry_bound at a transport failing every
attempt. -/
theorem send_email_retry_bound_witness :
    (send_email (fun _ => Except.error "boom")).calls = 15
    ∧ (send_email (fun _ => Except.error "boom")).sleeps = List.replicate 14 60000
    ∧ wait_fixed = 60000
    ∧ stop_max_attempt_number = 15
    ∧ (send_email (fun _ => Except.error "boom")).result = Except.error "boom" :=
  send_email_retry_bound (fun _ => Except.error "boom") (fun _ => "boom") (fun _ => rfl)

/-- folding a run of staged deletes only extends the staged list. -/
lemma foldl_popStep_dele (l : List Nat) :
    ∀ s : PopState, (l.map PopOp.dele).foldl popStep s = { s with staged := s.staged ++ l } := by
  induction l with
  | nil =>
    intro s
    simp
  | cons a t ih =>
    intro s
    simp only [List.map_cons, List.foldl_cons, popStep]
    rw [ih]
    simp

/-- the staged deletes of a run are one dele per enumerated message. -/
lemma deleOps_eq (msgs : List RawMail) :
    deleOps msgs = ((List.range msgs.length).map (fun i => i + 1)).map PopOp.dele := by
  simp [deleOps, List.map_map, Function.comp]

/-- a trace of staged deletes ended by rset then quit leaves nothing durable. -/
lemma runPop_fail (msgs : List RawMail) :
    runPop (deleOps msgs ++ [PopOp.rset, PopOp.quit]) =
      { staged := [], committed := [], closed := true } := by
  unfold runPop
  rw [deleOps_eq, List.foldl_append, foldl_popStep_dele]
  rfl

/-- Claim C1: in a run with fetched messages, a failing summary send makes
the run reset the staged deletes before closing the session — the operation
trace ends with rset followed by quit and no delete becomes durable — and
staged deletes become durable only when the summary send returned
successfully. -/
theorem process_emails_transactional (msgs : List RawMail)
    (transport : Nat → Except String Unit) (hne : msgs ≠ []) :
    (∀ e, send_backups_email (fetchEmailData msgs) transport = Except.error e →
      (process_emails msgs transport).1 = deleOps msgs ++ [PopOp.rset, PopOp.quit]
      ∧ (runPop (process_emails msgs transport).1).committed = [])
    ∧ ((runPop (process_emails msgs transport).1).committed ≠ [] →
      ∃ html, send_backups_email (fetchEmailData msgs) transport = Except.ok html) := by
  have hn : msgs.length > 0 := List.length_pos.mpr hne
  constructor
  · intro e he
    unfold process_emails
    rw [if_pos hn, he]
    refine ⟨rfl, ?_⟩
    rw [runPop_fail]
  · intro hc
    cases hsb : send_backups_email (fetchEmailData msgs) transport with
    | error e =>
      exfalso
      apply hc
      have hops : (process_emails msgs transport).1 = deleOps msgs ++ [PopOp.rset, PopOp.quit] := by
        unfold process_emails
        rw [if_pos hn, hsb]
      rw [hops, runPop_fail]
    | ok html => exact ⟨html, rfl⟩

/-- witness for process_emails_transactional at one fetched message and a
transport failing every attempt. -/
theorem process_emails_transactional_witness :
    (process_emails [RawMail.mk [MailPart.mk "text/plain" "Backup task X has succeeded."] "Mon"]
        (fun _ => Except.error "down")).1 =
      deleOps [RawMail.mk [MailPart.mk "text/plain" "Backup task X has succeeded."] "Mon"]
        ++ [PopOp.rset, PopOp.quit]
    ∧ (runPop (process_emails
        [RawMail.mk [MailPart.mk "text/plain" "Backup task X has succeeded."] "Mon"]
        (fun _ => Except.error "down")).1).committed = [] :=
  (process_emails_transactional
    [RawMail.mk [MailPart.mk "text/plain" "Backup task X has succeeded."] "Mon"]
    (fun _ => Except.error "down") (List.cons_ne_nil _ _)).1 "down" rfl

/-- with an empty mailbox, process_emails only quits the session and the run
outcome mirrors the notice delivery result. -/
lemma process_empty_eq (transport : Nat → Except String Unit) :
    process_emails [] transport = ([PopOp.quit],
      match (send_email transport).result with
      | Except.error e => RunOutcome.noticeFailed e
      | Except.ok _ => RunOutcome.noticeSent no_messages_body) := by
  unfold process_emails send_no_messages_email
  cases (send_email transport).result <;> rfl

/-- Claim C9: with an empty mailbox the run closes the session without
staging, committing or aborting any delete, sends the fixed empty-inbox
notice, and a notice delivery failure only produces a logged-failure
outcome. -/
theorem process_emails_empty_mailbox (transport : Nat → Except String Unit) :
    (process_emails [] transport).1 = [PopOp.quit]
    ∧ (∀ i, PopOp.dele i ∉ (process_emails [] transport).1)
    ∧ PopOp.rset ∉ (process_emails [] transport).1
    ∧ (runPop (process_emails [] transport).1).committed = []
    ∧ no_messages_body = "The backup log inbox is empty."
    ∧ (∀ e, (send_email transport).result = Except.error e →
        (process_emails [] transport).2 = RunOutcome.noticeFailed e)
    ∧ (∀ u, (send_email transport).result = Except.ok u →
        (process_emails [] transport).2 = RunOutcome.noticeSent no_messages_body) := by
  rw [process_empty_eq]
  refine ⟨rfl, ?_, ?_, rfl, rfl, ?_, ?_⟩
  · intro i
    simp
  · simp
  · intro e he
    rw [he]
  · intro u hu
    rw [hu]

/-- witness for process_emails_empty_mailbox at a transport failing every
attempt. -/
theorem process_emails_empty_mailbox_witness :
    (process_emails [] (fun _ => Except.error "down")).1 = [PopOp.quit]
    ∧ PopOp.dele 1 ∉ (process_emails [] (fun _ => Except.error "down")).1
    ∧ PopOp.rset ∉ (process_emails [] (fun _ => Except.error "down")).1
    ∧ (runPop (process_emails [] (fun _ => Except.error "down")).1).committed = []
    ∧ no_messages_body = "The backup log inbox is empty."
    ∧ (process_emails [] (fun _ => Except.error "down")).2 = RunOutcome.noticeFailed "down" := by
  have h := process_emails_empty_mailbox (fun _ => Except.error "down")
  exact ⟨h.1, h.2.1 1, h.2.2.1, h.2.2.2.1, h.2.2.2.2.1, h.2.2.2.2.2.1 "down" rfl⟩

/-- isPrefixB decides the leading-segment relation. -/
lemma isPrefixB_iff (pat : List Char) : ∀ l, isPrefixB pat l = true ↔ pat <+: l := by
  induction pat with
  | nil =>
    intro l
    simp [isPrefixB]
  | cons a as ih =>
    intro l
    cases l with
    | nil => simp [isPrefixB]
    | cons b bs => simp [isPrefixB, ih, List.cons_prefix_cons]

/-- isSubB decides substring containment. -/
lemma isSubB_iff (pat : List Char) : ∀ l, isSubB pat l = true ↔ pat <:+: l := by
  intro l
  induction l with
  | nil => simp [isSubB, List.isEmpty_iff]
  | cons b bs ih => simp [isSubB, isPrefixB_iff, ih, List.infix_cons_iff]

/-- appending one character not occurring in the pattern does not change
substring containment. -/
lemma infix_concat_iff (sub xs : List Char) (c : Char) (hc : c ∉ sub) :
    sub <:+: xs ++ [c] ↔ sub <:+: xs := by
  constructor
  · rintro ⟨s, t, hst⟩
    rcases List.eq_nil_or_concat t with rfl | ⟨ts, d, rfl⟩
    · rcases List.eq_nil_or_concat sub with rfl | ⟨ss, a, rfl⟩
      · exact List.nil_infix
      · exfalso
        apply hc
        rw [List.concat_eq_append] at hst
        have h1 : ((s ++ ss) ++ [a]).getLast? = (xs ++ [c]).getLast? := by
          rw [← hst]
          simp [List.append_assoc]
        rw [List.getLast?_concat, List.getLast?_concat] at h1
        have h2 : a = c := Option.some.inj h1
        rw [List.concat_eq_append, h2]
        exact List.mem_append_right _ (List.mem_singleton_self c)
    · rw [List.concat_eq_append] at hst
      have h1 : ((s ++ sub ++ ts) ++ [d]).dropLast = (xs ++ [c]).dropLast := by
        rw [← hst]
        simp [List.append_assoc]
      rw [List.dropLast_concat, List.dropLast_concat] at h1
      exact ⟨s, ts, h1⟩
  · rintro ⟨s, t, hst⟩
    exact ⟨s, t ++ [c], by rw [← hst]; simp⟩

/-- appending a run of periods does not change containment of a pattern free
of periods. -/
lemma infix_append_dots (sub l : List Char) (hs : '.' ∉ sub) :
    ∀ dots : List Char, (∀ x ∈ dots, x = '.') → (sub <:+: l ++ dots ↔ sub <:+: l) := by
  intro dots
  induction dots using List.reverseRecOn with
  | nil =>
    intro _
    simp
  | append_singleton ds d ih =>
    intro hd
    have hdd : ∀ x ∈ ds, x = '.' := fun x hx => hd x (List.mem_append_left _ hx)
    have hdc : d = '.' := hd d (List.mem_append_right _ (List.mem_singleton_self d))
    have hcn : d ∉ sub := by
      rw [hdc]
      exact hs
    rw [← List.append_assoc, infix_concat_iff sub (l ++ ds) d hcn]
    exact ih hdd

/-- a string is its period-stripped form followed by its run of trailing
periods. -/
lemma rstripDots_decomp (s : String) :
    s.data = (rstripDots s).data ++ (s.data.reverse.takeWhile (fun c => c = '.')).reverse := by
  have h := List.takeWhile_append_dropWhile (p := fun c => decide (c = '.')) (l := s.data.reverse)
  calc s.data = s.data.reverse.reverse := (List.reverse_reverse _).symm
    _ = (s.data.reverse.takeWhile (fun c => c = '.')
          ++ s.data.reverse.dropWhile (fun c => c = '.')).reverse := by rw [h]
    _ = (rstripDots s).data ++ (s.data.reverse.takeWhile (fun c => c = '.')).reverse :=
        List.reverse_append _ _

/-- stripping trailing periods does not change containment of a pattern free
of periods: the substring matched by the source on the stripped line agrees
with a match on the raw last non-blank line. -/
lemma containsSub_rstripDots (s sub : String) (hs : '.' ∉ sub.data) :
    containsSub (rstripDots s) sub = containsSub s sub := by
  have hdots : ∀ x ∈ (s.data.reverse.takeWhile (fun c => c = '.')).reverse, x = '.' := by
    intro x hx
    rw [List.mem_reverse] at hx
    have hpx := List.mem_takeWhile_imp hx
    simpa using hpx
  have h3 : (sub.data <:+: (rstripDots s).data) ↔ (sub.data <:+: s.data) := by
    conv_rhs => rw [rstripDots_decomp s]
    exact (infix_append_dots sub.data (rstripDots s).data hs _ hdots).symm
  have h1 := isSubB_iff sub.data (rstripDots s).data
  have h2 := isSubB_iff sub.data s.data
  unfold containsSub
  rcases Bool.eq_false_or_eq_true (isSubB sub.data (rstripDots s).data) with hb | hb <;>
    rcases Bool.eq_false_or_eq_true (isSubB sub.data s.data) with hb2 | hb2 <;>
    simp_all

/-- Claim C2: the outcome is decided by a case-sensitive literal substring
match on the last non-blank line of the body: containing has succeeded gives
Success with empty error info regardless of the rest of the body, otherwise
containing has failed gives Failure, otherwise Unknown; the rendered summary
line is that line with trailing periods stripped. -/
theorem classify_on_summary_line (body ll : String) (h : lastNonBlank body = some ll) :
    last_line body = some (rstripDots ll)
    ∧ (containsSub ll "has succeeded" = true →
        classify_outcome (rstripDots ll) = Outcome.success
        ∧ error_info body (rstripDots ll) = some "")
    ∧ (containsSub ll "has succeeded" = false → containsSub ll "has failed" = true →
        classify_outcome (rstripDots ll) = Outcome.failure)
    ∧ (containsSub ll "has succeeded" = false → containsSub ll "has failed" = false →
        classify_outcome (rstripDots ll) = Outcome.unknown) := by
  have hs : containsSub (rstripDots ll) "has succeeded" = containsSub ll "has succeeded" :=
    containsSub_rstripDots ll "has succeeded" (by decide)
  have hf : containsSub (rstripDots ll) "has failed" = containsSub ll "has failed" :=
    containsSub_rstripDots ll "has failed" (by decide)
  refine ⟨?_, ?_, ?_, ?_⟩
  · rw [last_line, h]
    rfl
  · intro h1
    constructor
    · unfold classify_outcome
      rw [hs, h1]
      simp
    · unfold error_info
      rw [hs, h1]
      simp
  · intro h1 h2
    unfold classify_outcome
    rw [hs, h1, hf, h2]
    simp
  · intro h1 h2
    unfold classify_outcome
    rw [hs, h1, hf, h2]
    simp

/-- witness for classify_on_summary_line at a concrete success body. -/
theorem classify_on_summary_line_witness :
    last_line "Backup task X has succeeded." = some (rstripDots "Backup task X has succeeded.")
    ∧ classify_outcome (rstripDots "Backup task X has succeeded.") = Outcome.success
    ∧ error_info "Backup task X has succeeded." (rstripDots "Backup task X has succeeded.")
        = some "" := by
  have h := classify_on_summary_line "Backup task X has succeeded."
    "Backup task X has succeeded." rfl
  exact ⟨h.1, (h.2.1 rfl).1, (h.2.1 rfl).2⟩

/-- the seen-set dedup of unique_everseen agrees with keeping exactly the
entries whose value did not occur earlier in the list. -/
lemma uniqueAux_eq_keepFirsts (rest : List String) :
    ∀ seen pre : List String, (∀ a, a ∈ seen ↔ a ∈ pre) →
      uniqueAux seen rest = keepFirsts pre rest := by
  induction rest with
  | nil =>
    intro seen pre _
    rfl
  | cons a t ih =>
    intro seen pre hmem
    by_cases ha : a ∈ pre
    · have ha' : a ∈ seen := (hmem a).mpr ha
      simp only [uniqueAux, keepFirsts, if_pos ha, if_pos ha']
      refine ih _ _ (fun x => ?_)
      rw [List.mem_append, List.mem_singleton]
      constructor
      · intro hx
        exact Or.inl ((hmem x).mp hx)
      · rintro (hx | rfl)
        · exact (hmem x).mpr hx
        · exact ha'
    · have ha' : a ∉ seen := fun hx => ha ((hmem a).mp hx)
      simp only [uniqueAux, keepFirsts, if_neg ha, if_neg ha']
      congr 1
      refine ih _ _ (fun x => ?_)
      rw [List.mem_cons, List.mem_append, List.mem_singleton]
      constructor
      · rintro (rfl | hx)
        · exact Or.inr rfl
        · exact Or.inl ((hmem x).mp hx)
      · rintro (hx | rfl)
        · exact Or.inr ((hmem x).mpr hx)
        · exact Or.inl rfl

/-- the duplicate count never exceeds the number of entries. -/
lemma dupCount_le (rest : List String) : ∀ pre, dupCount pre rest ≤ rest.length := by
  induction rest with
  | nil =>
    intro _
    simp [dupCount]
  | cons a t ih =>
    intro pre
    have hle := ih (pre ++ [a])
    by_cases h : a ∈ pre <;> simp [dupCount, h] <;> omega

/-- keeping first occurrences drops exactly the duplicate entries. -/
lemma keepFirsts_length (rest : List String) :
    ∀ pre, (keepFirsts pre rest).length = rest.length - dupCount pre rest := by
  induction rest with
  | nil =>
    intro _
    rfl
  | cons a t ih =>
    intro pre
    have hle := dupCount_le t (pre ++ [a])
    by_cases h : a ∈ pre <;> simp [keepFirsts, dupCount, h, ih (pre ++ [a])] <;> omega

/-- Claim C3: for a Failure body whose error scan completes with the pair
list ps (N entries), the deduplicated error sequence keeps exactly the
entries not textually identical, as full rendered code-colon-message
strings, to an earlier entry — each distinct entry at the position of its
first occurrence — its length is N minus the number of duplicate entries,
and extract_errors renders exactly this deduplicated sequence. -/
theorem extract_errors_dedup (body ll : String) (ps : List String)
    (_hline : lastNonBlank body = some ll)
    (_hfail : classify_outcome (rstripDots ll) = Outcome.failure)
    (hps : extractLoop none [] (splitlines body) = some ps) :
    unique_everseen ps = keepFirsts [] ps
    ∧ (unique_everseen ps).length = ps.length - dupCount [] ps
    ∧ extract_errors body =
        some ("<ul><li>" ++ joinSep "</li><li>" (unique_everseen ps) ++ "</li></ul>") := by
  have h1 : unique_everseen ps = keepFirsts [] ps :=
    uniqueAux_eq_keepFirsts ps [] [] (fun a => Iff.rfl)
  refine ⟨h1, ?_, ?_⟩
  · rw [h1]
    exact keepFirsts_length ps []
  · unfold extract_errors
    rw [hps]
    rfl

/-- witness for extract_errors_dedup at a failure body with one duplicated
error pair. -/
theorem extract_errors_dedup_witness :
    unique_everseen ["Error code: 1: a", "Error code: 1: a"]
      = keepFirsts [] ["Error code: 1: a", "Error code: 1: a"]
    ∧ (unique_everseen ["Error code: 1: a", "Error code: 1: a"]).length
      = (["Error code: 1: a", "Error code: 1: a"] : List String).length
        - dupCount [] ["Error code: 1: a", "Error code: 1: a"]
    ∧ extract_errors
        "Error code: 1\nMessage: a\nError code: 1\nMessage: a\nBackup task X has failed."
      = some ("<ul><li>"
          ++ joinSep "</li><li>" (unique_everseen ["Error code: 1: a", "Error code: 1: a"])
          ++ "</li></ul>") :=
  extract_errors_dedup
    "Error code: 1\nMessage: a\nError code: 1\nMessage: a\nBackup task X has failed."
    "Backup task X has failed." ["Error code: 1: a", "Error code: 1: a"] rfl rfl rfl

/-- the head of the remainder of dropWhile falsifies the predicate. -/
lemma head_dropWhile_false (p : Char → Bool) :
    ∀ (l : List Char) a t, l.dropWhile p = a :: t → p a = false := by
  intro l
  induction l with
  | nil =>
    intro a t h
    simp [List.dropWhile] at h
  | cons b bs ih =>
    intro a t h
    rw [List.dropWhile_cons] at h
    by_cases hb : p b = true
    · rw [if_pos hb] at h
      exact ih a t h
    · rw [if_neg hb] at h
      cases h
      simpa using hb

/-- Claim C4 (amended): the summary line used in the rendered report is the
last non-blank line with every trailing period removed — the line splits
into the rendered summary line followed by a run of periods, and the
rendered summary line itself does not end in a period (so a line ending in
several periods loses them all, not just the last one). -/
theorem last_line_strips_all_trailing_periods (body ll : String)
    (h : lastNonBlank body = some ll) :
    last_line body = some (rstripDots ll)
    ∧ ll.data = (rstripDots ll).data
        ++ List.replicate (ll.data.reverse.takeWhile (fun c => c = '.')).length '.'
    ∧ (rstripDots ll).data.getLast? ≠ some '.' := by
  refine ⟨?_, ?_, ?_⟩
  · rw [last_line, h]
    rfl
  · have hall : ∀ x ∈ ll.data.reverse.takeWhile (fun c => c = '.'), x = '.' := by
      intro x hx
      have hpx := List.mem_takeWhile_imp hx
      simpa using hpx
    have hrep := List.eq_replicate_of_mem hall
    have hrev : (ll.data.reverse.takeWhile (fun c => c = '.')).reverse
        = List.replicate (ll.data.reverse.takeWhile (fun c => c = '.')).length '.' := by
      conv_lhs => rw [hrep]
      rw [List.reverse_replicate]
    conv_lhs => rw [rstripDots_decomp ll]
    rw [hrev]
  · have hdata : (rstripDots ll).data = (ll.data.reverse.dropWhile (fun c => c = '.')).reverse :=
      rfl
    rw [hdata, List.getLast?_reverse]
    rcases hd : ll.data.reverse.dropWhile (fun c => c = '.') with _ | ⟨a, t⟩
    · simp
    · have hfa := head_dropWhile_false (fun c => decide (c = '.')) ll.data.reverse a t hd
      have hane : a ≠ '.' := by simpa using hfa
      simp [hane]

/-- witness for last_line_strips_all_trailing_periods at a body whose last
line ends in two periods. -/
theorem last_line_strips_all_trailing_periods_witness :
    last_line "Backup task X has failed.." = some (rstripDots "Backup task X has failed..")
    ∧ ("Backup task X has failed.." : String).data = (rstripDots "Backup task X has failed..").data
        ++ List.replicate
          (("Backup task X has failed.." : String).data.reverse.takeWhile
            (fun c => c = '.')).length '.'
    ∧ (rstripDots "Backup task X has failed..").data.getLast? ≠ some '.' :=
  last_line_strips_all_trailing_periods "Backup task X has failed.."
    "Backup task X has failed.." rfl

/-- Claim C4 counterexample: the source strips every trailing period, not
exactly one: the body "abc.." renders with summary line "abc", not the
"abc." the claim requires. -/
theorem last_line_counterexample :
    last_line "abc.." = some "abc"
    ∧ renderItem (EData.mk "abc.." "D") = some "<li style=\"color:#000000\">abc on D</li>"
    ∧ ("abc" : String) ≠ "abc." :=
  ⟨rfl, rfl, by decide⟩

/-- Claim C5 (code bug): an Error code line with no following Message line
yields no entry and no crash, but a Message line with no preceding Error
code line makes extract_errors raise UnboundLocalError, so extraction is not
total: at the failing input it evaluates to the crash value none. -/
theorem extract_errors_not_total :
    extractLoop none [] (splitlines "Error code: 7\nBackup task X has failed") = some []
    ∧ extract_errors "Error code: 7\nBackup task X has failed" = some "<ul><li></li></ul>"
    ∧ extract_errors "Message: Disk full\nBackup task X has failed" = none :=
  ⟨rfl, rfl, rfl⟩

/-- prepending the empty string to a string changes nothing. -/
lemma str_nil_append (s : String) : "" ++ s = s := by
  cases s
  rfl

/-- an entry with empty body contributes nothing to the rendered items and
leaves the neighbouring items unchanged. -/
lemma renderItems_skip_empty (post : List EData) (d : EData) (hd : d.body = "") :
    ∀ pre : List EData, renderItems (pre ++ d :: post) = renderItems (pre ++ post) := by
  have hitem : renderItem d = some "" := by
    unfold renderItem
    rw [hd]
    rfl
  intro pre
  induction pre with
  | nil =>
    show renderItems (d :: post) = renderItems post
    simp only [renderItems]
    rw [hitem]
    cases hr : renderItems post
    · rfl
    · exact congrArg some (str_nil_append _)
  | cons e t ih =>
    show renderItems (e :: (t ++ d :: post)) = renderItems (e :: (t ++ post))
    simp only [renderItems]
    rw [ih]

/-- Claim C7 (code bug): a fetched message with empty decoded body is skipped
without raising and leaves the surrounding list items intact, but a non-empty
body with no non-blank line is not skipped: rendering it raises IndexError —
at the failing input the item renders to the crash value none. -/
theorem empty_body_skipped (pre post : List EData) (d : EData) (hd : d.body = "") :
    renderList (pre ++ d :: post) = renderList (pre ++ post)
    ∧ renderItem (EData.mk "\n" "D") = none := by
  constructor
  · unfold renderList
    rw [renderItems_skip_empty post d hd pre]
  · rfl

/-- witness for empty_body_skipped with an empty-body message between two
normal ones. -/
theorem empty_body_skipped_witness :
    renderList [EData.mk "Backup task X has succeeded." "D", EData.mk "" "E", EData.mk "abc" "F"]
      = renderList [EData.mk "Backup task X has succeeded." "D", EData.mk "abc" "F"]
    ∧ renderItem (EData.mk "\n" "D") = none :=
  empty_body_skipped [EData.mk "Backup task X has succeeded." "D"] [EData.mk "abc" "F"]
    (EData.mk "" "E") rfl

/-- Claim C8 counterexample: slicing the first 8 characters off the Message
line keeps the space after the colon, so the rendered entry is
"Error code: 5: Disk full", and the exact claimed string
"Error code: 5:Disk full" occurs nowhere in the output. -/
theorem error_entry_counterexample :
    extract_errors "Error code: 5\nMessage: Disk full\nBackup task X has failed." =
      some "<ul><li>Error code: 5: Disk full</li></ul>"
    ∧ containsSub "<ul><li>Error code: 5: Disk full</li></ul>" "Error code: 5:Disk full"
        = false :=
  ⟨rfl, rfl⟩

/-- Claim C8 (amended): for the scenario body the report item is red and its
nested entry joins the full Error code line text with the Message line minus
its first 8 characters using a colon, yielding "Error code: 5: Disk full"
(the slice keeps the space that follows the Message marker). -/
theorem error_entry_rendering :
    renderItem (EData.mk "Error code: 5\nMessage: Disk full\nBackup task X has failed." "D") =
      some ("<li style=\"color:#FF0000\">Backup task X has failed on D"
        ++ "<ul><li>" ++ "Error code: 5" ++ ":" ++ strDrop "Message: Disk full" 8
        ++ "</li></ul></li>")
    ∧ strDrop "Message: Disk full" 8 = " Disk full" :=
  ⟨rfl, rfl⟩

/-- a scan seeing no Message line appends nothing and cannot crash. -/
lemma extractLoop_no_message (lines : List String) :
    ∀ (cur : Option String) (acc : List String),
      (∀ l ∈ lines, startsWith l "Message:" = false) →
      extractLoop cur acc lines = some acc := by
  induction lines with
  | nil =>
    intro cur acc _
    rfl
  | cons a t ih =>
    intro cur acc h
    have ha := h a (List.mem_cons_self a t)
    have ht : ∀ l ∈ t, startsWith l "Message:" = false :=
      fun l hl => h l (List.mem_cons_of_mem a hl)
    by_cases he : startsWith a "Error code:" = true
    · simp only [extractLoop]
      rw [if_pos he]
      exact ih (some a) acc ht
    · simp only [extractLoop]
      rw [if_neg he, if_neg (by simp [ha])]
      exact ih cur acc ht

/-- Claim C10 (amended): on any text none of whose lines starts with the
Message marker — in particular no pair is matched and the unbound-variable
crash is not reached — extract_errors returns the single empty bullet
"<ul><li></li></ul>". -/
theorem extract_errors_no_pairs (text : String)
    (h : ∀ l ∈ splitlines text, startsWith l "Message:" = false) :
    extract_errors text = some "<ul><li></li></ul>" := by
  unfold extract_errors
  rw [extractLoop_no_message (splitlines text) none [] h]
  rfl

/-- witness for extract_errors_no_pairs at a text with an unpaired Error code
line. -/
theorem extract_errors_no_pairs_witness :
    extract_errors "Error code: 5\nBackup task X has failed" = some "<ul><li></li></ul>" :=
  extract_errors_no_pairs "Error code: 5\nBackup task X has failed" (by decide)

/-- Claim C10 counterexample: the input "Message: boom" contains no matched
pair, yet extract_errors does not return the empty bullet list — it
crashes. -/
theorem empty_ul_counterexample :
    extract_errors "Message: boom" = none
    ∧ extract_errors "Message: boom" ≠ some "<ul><li></li></ul>" :=
  ⟨rfl, by decide⟩

end Acronsum
